import Mathlib

/-!
# NESEmulator: the 6502 register file and opcode dispatch table

A shallow embedding of `src/lib/cpu/cpu.h` and `src/main.cpp`.

* `BYTE` and `WORD` (from `lib/types/types.h`) are modelled as natural numbers; every store
  truncates explicitly (`% 256`, `% 65536`, `% 2` for a one-bit field).
* `CPU_Registers` keeps the union's single storage byte `PF`; the eight one-bit fields are
  views on that byte, allocated from the least significant bit in declaration order
  (`C` is bit 0, ..., `N` is bit 7).
* `CPU_Instructions` and `CPU_AddressModes` declare member functions without bodies; the
  table only stores pointers to them, so they are embedded as enumerations of identifiers.
* `CPU.opcodeTable` is transcribed row by row.
* The memory interface and the bodies of `ADC`, `PHA`, `PLA`, `JMP` and `ind` are not in the
  source; where a statement needs them they are modelled from the specification and marked so.
-/

namespace NES

/-- Identifiers of the member functions declared in `struct CPU_AddressModes`. -/
inductive CPU_AddressModes where
  | imm | imp | acc | zp | zpx | zpy | rel | abs | abx | aby | ind | inx | iny
  deriving DecidableEq, Repr

/-- Identifiers of the member functions declared in `struct CPU_Instructions`. -/
inductive CPU_Instructions where
  | LDA | LDX | LDY | STA | STX | STY
  | TAX | TAY | TXA | TYA
  | TSX | TXS | PHA | PHP | PLA | PLP
  | AND | EOR | ORA | BIT
  | ADC | SBC | CMP | CPX | CPY
  | INC | INX | INY | DEC | DEX | DEY
  | ASL | LSR | ROL | ROR
  | JMP | JSR | RTS
  | BCC | BCS | BEQ | BMI | BNE | BPL | BVC | BVS
  | CLC | CLD | CLI | CLV | SEC | SED | SEI
  | BRK | NOP | RTI
  deriving DecidableEq, Repr

/-- One row of the dispatch table (`struct CPU_Instruction`). -/
structure CPU_Instruction where
  opcode : Nat
  instruction : CPU_Instructions
  addressMode : CPU_AddressModes
  bytes : Nat
  cycles : Nat
  deriving DecidableEq, Repr

namespace CPU

/-- Rows `0x00`..`0x0F` of `CPU::opcodeTable`. -/
def opcodeRows0 : List CPU_Instruction := [
  .mk 0x00 .BRK .imp 1 7,
  .mk 0x01 .ORA .inx 2 6,
  .mk 0x02 .NOP .imp 1 2,
  .mk 0x03 .NOP .imp 1 8,
  .mk 0x04 .NOP .imp 1 3,
  .mk 0x05 .ORA .zp 2 3,
  .mk 0x06 .ASL .zp 2 5,
  .mk 0x07 .NOP .imp 1 5,
  .mk 0x08 .PHP .imp 1 3,
  .mk 0x09 .ORA .imm 2 2,
  .mk 0x0A .ASL .acc 1 2,
  .mk 0x0B .NOP .imp 1 2,
  .mk 0x0C .NOP .imp 1 4,
  .mk 0x0D .ORA .abs 3 4,
  .mk 0x0E .ASL .abs 3 6,
  .mk 0x0F .NOP .imp 1 6]

/-- Rows `0x10`..`0x1F` of `CPU::opcodeTable`. -/
def opcodeRows1 : List CPU_Instruction := [
  .mk 0x10 .BPL .rel 2 2,
  .mk 0x11 .ORA .iny 2 5,
  .mk 0x12 .NOP .imp 1 2,
  .mk 0x13 .NOP .imp 1 8,
  .mk 0x14 .NOP .imp 1 4,
  .mk 0x15 .ORA .zpx 2 4,
  .mk 0x16 .ASL .zpx 2 6,
  .mk 0x17 .NOP .imp 1 6,
  .mk 0x18 .CLC .imp 1 2,
  .mk 0x19 .ORA .aby 3 4,
  .mk 0x1A .NOP .imp 1 2,
  .mk 0x1B .NOP .imp 1 7,
  .mk 0x1C .NOP .imp 1 4,
  .mk 0x1D .ORA .abx 3 4,
  .mk 0x1E .ASL .abx 3 7,
  .mk 0x1F .NOP .imp 1 7]

/-- Rows `0x20`..`0x2F` of `CPU::opcodeTable`. -/
def opcodeRows2 : List CPU_Instruction := [
  .mk 0x20 .JSR .abs 3 6,
  .mk 0x21 .AND .inx 2 6,
  .mk 0x22 .NOP .imp 1 2,
  .mk 0x23 .NOP .imp 1 8,
  .mk 0x24 .BIT .zp 2 3,
  .mk 0x25 .AND .zp 2 3,
  .mk 0x26 .ROL .zp 2 5,
  .mk 0x27 .NOP .imp 1 5,
  .mk 0x28 .PLP .imp 1 4,
  .mk 0x29 .AND .imm 2 2,
  .mk 0x2A .ROL .acc 1 2,
  .mk 0x2B .NOP .imp 1 2,
  .mk 0x2C .BIT .abs 3 4,
  .mk 0x2D .AND .abs 3 4,
  .mk 0x2E .ROL .abs 3 6,
  .mk 0x2F .NOP .imp 1 6]

/-- Rows `0x30`..`0x3F` of `CPU::opcodeTable`. -/
def opcodeRows3 : List CPU_Instruction := [
  .mk 0x30 .BMI .rel 2 2,
  .mk 0x31 .AND .iny 2 5,
  .mk 0x32 .NOP .imp 1 2,
  .mk 0x33 .NOP .imp 1 8,
  .mk 0x34 .NOP .imp 1 4,
  .mk 0x35 .AND .zpx 2 4,
  .mk 0x36 .ROL .zpx 2 6,
  .mk 0x37 .NOP .imp 1 6,
  .mk 0x38 .SEC .imp 1 2,
  .mk 0x39 .AND .aby 3 4,
  .mk 0x3A .NOP .imp 1 2,
  .mk 0x3B .NOP .imp 1 7,
  .mk 0x3C .NOP .imp 1 4,
  .mk 0x3D .AND .abx 3 4,
  .mk 0x3E .ROL .abx 3 7,
  .mk 0x3F .NOP .imp 1 7]

/-- Rows `0x40`..`0x4F` of `CPU::opcodeTable`. -/
def opcodeRows4 : List CPU_Instruction := [
  .mk 0x40 .RTI .imp 1 6,
  .mk 0x41 .EOR .inx 2 6,
  .mk 0x42 .NOP .imp 1 2,
  .mk 0x43 .NOP .imp 1 8,
  .mk 0x44 .NOP .imp 1 3,
  .mk 0x45 .EOR .zp 2 3,
  .mk 0x46 .LSR .zp 2 5,
  .mk 0x47 .NOP .imp 1 5,
  .mk 0x48 .PHA .imp 1 3,
  .mk 0x49 .EOR .imm 2 2,
  .mk 0x4A .LSR .acc 1 2,
  .mk 0x4B .NOP .imp 1 2,
  .mk 0x4C .JMP .abs 3 3,
  .mk 0x4D .EOR .abs 3 4,
  .mk 0x4E .LSR .abs 3 6,
  .mk 0x4F .NOP .imp 1 6]

/-- Rows `0x50`..`0x5F` of `CPU::opcodeTable`. -/
def opcodeRows5 : List CPU_Instruction := [
  .mk 0x50 .BVC .rel 2 2,
  .mk 0x51 .EOR .iny 2 5,
  .mk 0x52 .NOP .imp 1 2,
  .mk 0x53 .NOP .imp 1 8,
  .mk 0x54 .NOP .imp 1 4,
  .mk 0x55 .EOR .zpx 2 4,
  .mk 0x56 .LSR .zpx 2 6,
  .mk 0x57 .NOP .imp 1 6,
  .mk 0x58 .CLI .imp 1 2,
  .mk 0x59 .EOR .aby 3 4,
  .mk 0x5A .NOP .imp 1 2,
  .mk 0x5B .NOP .imp 1 7,
  .mk 0x5C .NOP .imp 1 4,
  .mk 0x5D .EOR .abx 3 4,
  .mk 0x5E .LSR .abx 3 7,
  .mk 0x5F .NOP .imp 1 7]

/-- Rows `0x60`..`0x6F` of `CPU::opcodeTable`. -/
def opcodeRows6 : List CPU_Instruction := [
  .mk 0x60 .RTS .imp 1 6,
  .mk 0x61 .ADC .inx 2 6,
  .mk 0x62 .NOP .imp 1 2,
  .mk 0x63 .NOP .imp 1 8,
  .mk 0x64 .NOP .imp 1 3,
  .mk 0x65 .ADC .zp 2 3,
  .mk 0x66 .ROR .zp 2 5,
  .mk 0x67 .NOP .imp 1 5,
  .mk 0x68 .PLA .imp 1 4,
  .mk 0x69 .ADC .imm 2 2,
  .mk 0x6A .ROR .acc 1 2,
  .mk 0x6B .NOP .imp 1 2,
  .mk 0x6C .JMP .ind 3 5,
  .mk 0x6D .ADC .abs 3 4,
  .mk 0x6E .ROR .abs 3 6,
  .mk 0x6F .NOP .imp 1 6]

/-- Rows `0x70`..`0x7F` of `CPU::opcodeTable`. -/
def opcodeRows7 : List CPU_Instruction := [
  .mk 0x70 .BVS .rel 2 2,
  .mk 0x71 .ADC .iny 2 5,
  .mk 0x72 .NOP .imp 1 2,
  .mk 0x73 .NOP .imp 1 8,
  .mk 0x74 .NOP .imp 1 4,
  .mk 0x75 .ADC .zpx 2 4,
  .mk 0x76 .ROR .zpx 2 6,
  .mk 0x77 .NOP .imp 1 6,
  .mk 0x78 .SEI .imp 1 2,
  .mk 0x79 .ADC .aby 3 4,
  .mk 0x7A .NOP .imp 1 2,
  .mk 0x7B .NOP .imp 1 7,
  .mk 0x7C .NOP .imp 1 4,
  .mk 0x7D .ADC .abx 3 4,
  .mk 0x7E .ROR .abx 3 7,
  .mk 0x7F .NOP .imp 1 7]

/-- Rows `0x80`..`0x8F` of `CPU::opcodeTable`. -/
def opcodeRows8 : List CPU_Instruction := [
  .mk 0x80 .NOP .imp 1 2,
  .mk 0x81 .STA .inx 2 6,
  .mk 0x82 .NOP .imp 1 2,
  .mk 0x83 .NOP .imp 1 6,
  .mk 0x84 .STY .zp 2 3,
  .mk 0x85 .STA .zp 2 3,
  .mk 0x86 .STX .zp 2 3,
  .mk 0x87 .NOP .imp 1 3,
  .mk 0x88 .DEY .imp 1 2,
  .mk 0x89 .NOP .imp 1 2,
  .mk 0x8A .TXA .imp 1 2,
  .mk 0x8B .NOP .imp 1 2,
  .mk 0x8C .STY .abs 3 4,
  .mk 0x8D .STA .abs 3 4,
  .mk 0x8E .STX .abs 3 4,
  .mk 0x8F .NOP .imp 1 4]

/-- Rows `0x90`..`0x9F` of `CPU::opcodeTable`. -/
def opcodeRows9 : List CPU_Instruction := [
  .mk 0x90 .BCC .rel 2 2,
  .mk 0x91 .STA .iny 2 6,
  .mk 0x92 .NOP .imp 1 2,
  .mk 0x93 .NOP .imp 1 6,
  .mk 0x94 .STY .zpx 2 4,
  .mk 0x95 .STA .zpx 2 4,
  .mk 0x96 .STX .zpy 2 4,
  .mk 0x97 .NOP .imp 1 4,
  .mk 0x98 .TYA .imp 1 2,
  .mk 0x99 .STA .aby 3 5,
  .mk 0x9A .TXS .imp 1 2,
  .mk 0x9B .NOP .imp 1 5,
  .mk 0x9C .NOP .imp 1 5,
  .mk 0x9D .STA .abx 3 5,
  .mk 0x9E .NOP .imp 1 5,
  .mk 0x9F .NOP .imp 1 5]

/-- Rows `0xA0`..`0xAF` of `CPU::opcodeTable`. -/
def opcodeRowsA : List CPU_Instruction := [
  .mk 0xA0 .LDY .imm 2 2,
  .mk 0xA1 .LDA .inx 2 6,
  .mk 0xA2 .LDX .imm 2 2,
  .mk 0xA3 .NOP .imp 1 6,
  .mk 0xA4 .LDY .zp 2 3,
  .mk 0xA5 .LDA .zp 2 3,
  .mk 0xA6 .LDX .zp 2 3,
  .mk 0xA7 .NOP .imp 1 3,
  .mk 0xA8 .TAY .imp 1 2,
  .mk 0xA9 .LDA .imm 2 2,
  .mk 0xAA .TAX .imp 1 2,
  .mk 0xAB .NOP .imp 1 2,
  .mk 0xAC .LDY .abs 3 4,
  .mk 0xAD .LDA .abs 3 4,
  .mk 0xAE .LDX .abs 3 4,
  .mk 0xAF .NOP .imp 1 4]

/-- Rows `0xB0`..`0xBF` of `CPU::opcodeTable`. -/
def opcodeRowsB : List CPU_Instruction := [
  .mk 0xB0 .BCS .rel 2 2,
  .mk 0xB1 .LDA .iny 2 5,
  .mk 0xB2 .NOP .imp 1 2,
  .mk 0xB3 .NOP .imp 1 5,
  .mk 0xB4 .LDY .zpx 2 4,
  .mk 0xB5 .LDA .zpx 2 4,
  .mk 0xB6 .LDX .zpy 2 4,
  .mk 0xB7 .NOP .imp 1 4,
  .mk 0xB8 .CLV .imp 1 2,
  .mk 0xB9 .LDA .aby 3 4,
  .mk 0xBA .TSX .imp 1 2,
  .mk 0xBB .NOP .imp 1 4,
  .mk 0xBC .LDY .abx 3 4,
  .mk 0xBD .LDA .abx 3 4,
  .mk 0xBE .LDX .aby 3 4,
  .mk 0xBF .NOP .imp 1 4]

/-- Rows `0xC0`..`0xCF` of `CPU::opcodeTable`. -/
def opcodeRowsC : List CPU_Instruction := [
  .mk 0xC0 .CPY .imm 2 2,
  .mk 0xC1 .CMP .inx 2 6,
  .mk 0xC2 .NOP .imp 1 2,
  .mk 0xC3 .NOP .imp 1 8,
  .mk 0xC4 .CPY .zp 2 3,
  .mk 0xC5 .CMP .zp 2 3,
  .mk 0xC6 .DEC .zp 2 5,
  .mk 0xC7 .NOP .imp 1 5,
  .mk 0xC8 .INY .imp 1 2,
  .mk 0xC9 .CMP .imm 2 2,
  .mk 0xCA .DEX .imp 1 2,
  .mk 0xCB .NOP .imp 1 2,
  .mk 0xCC .CPY .abs 3 4,
  .mk 0xCD .CMP .abs 3 4,
  .mk 0xCE .DEC .abs 3 6,
  .mk 0xCF .NOP .imp 1 6]

/-- Rows `0xD0`..`0xDF` of `CPU::opcodeTable`. -/
def opcodeRowsD : List CPU_Instruction := [
  .mk 0xD0 .BNE .rel 2 2,
  .mk 0xD1 .CMP .iny 2 5,
  .mk 0xD2 .NOP .imp 1 2,
  .mk 0xD3 .NOP .imp 1 8,
  .mk 0xD4 .NOP .imp 1 4,
  .mk 0xD5 .CMP .zpx 2 4,
  .mk 0xD6 .DEC .zpx 2 6,
  .mk 0xD7 .NOP .imp 1 6,
  .mk 0xD8 .CLD .imp 1 2,
  .mk 0xD9 .CMP .aby 3 4,
  .mk 0xDA .NOP .imp 1 2,
  .mk 0xDB .NOP .imp 1 7,
  .mk 0xDC .NOP .imp 1 4,
  .mk 0xDD .CMP .abx 3 4,
  .mk 0xDE .DEC .abx 3 7,
  .mk 0xDF .NOP .imp 1 7]

/-- Rows `0xE0`..`0xEF` of `CPU::opcodeTable`. -/
def opcodeRowsE : List CPU_Instruction := [
  .mk 0xE0 .CPX .imm 2 2,
  .mk 0xE1 .SBC .inx 2 6,
  .mk 0xE2 .NOP .imp 1 2,
  .mk 0xE3 .NOP .imp 1 8,
  .mk 0xE4 .CPX .zp 2 3,
  .mk 0xE5 .SBC .zp 2 3,
  .mk 0xE6 .INC .zp 2 5,
  .mk 0xE7 .NOP .imp 1 5,
  .mk 0xE8 .INX .imp 1 2,
  .mk 0xE9 .SBC .imm 2 2,
  .mk 0xEA .NOP .imp 1 2,
  .mk 0xEB .NOP .imp 1 2,
  .mk 0xEC .CPX .abs 3 4,
  .mk 0xED .SBC .abs 3 4,
  .mk 0xEE .INC .abs 3 6,
  .mk 0xEF .NOP .imp 1 6]

/-- Rows `0xF0`..`0xFF` of `CPU::opcodeTable`. -/
def opcodeRowsF : List CPU_Instruction := [
  .mk 0xF0 .BEQ .rel 2 2,
  .mk 0xF1 .SBC .iny 2 5,
  .mk 0xF2 .NOP .imp 1 2,
  .mk 0xF3 .NOP .imp 1 8,
  .mk 0xF4 .NOP .imp 1 4,
  .mk 0xF5 .SBC .zpx 2 4,
  .mk 0xF6 .INC .zpx 2 6,
  .mk 0xF7 .NOP .imp 1 6,
  .mk 0xF8 .SED .imp 1 2,
  .mk 0xF9 .SBC .aby 3 4,
  .mk 0xFA .NOP .imp 1 2,
  .mk 0xFB .NOP .imp 1 7,
  .mk 0xFC .NOP .imp 1 4,
  .mk 0xFD .SBC .abx 3 4,
  .mk 0xFE .INC .abx 3 7,
  .mk 0xFF .NOP .imp 1 7]

/-- The 256 rows of `CPU::opcodeTable`, in source order (sixteen blocks of sixteen). -/
def opcodeTable : List CPU_Instruction :=
  opcodeRows0 ++ opcodeRows1 ++ opcodeRows2 ++ opcodeRows3 ++ opcodeRows4 ++ opcodeRows5 ++
  opcodeRows6 ++ opcodeRows7 ++ opcodeRows8 ++ opcodeRows9 ++ opcodeRowsA ++ opcodeRowsB ++
  opcodeRowsC ++ opcodeRowsD ++ opcodeRowsE ++ opcodeRowsF

end CPU

open CPU

/-- The eight one-bit fields of the anonymous struct inside the union of `CPU_Registers`, in
declaration order; `U` is the unused field that the source names `_`. -/
inductive Flag where
  | C | Z | I | D | B | U | O | N
  deriving DecidableEq, Repr

/-- Bit position of a flag inside the status byte: the fields are allocated from the least
significant bit in declaration order. -/
def Flag.bit : Flag → Nat
  | .C => 0
  | .Z => 1
  | .I => 2
  | .D => 3
  | .B => 4
  | .U => 5
  | .O => 6
  | .N => 7

/-- The register file (`struct CPU_Registers`). `PF` is the byte shared by the union; the
flags are read and written through `get` and `set` below. -/
structure CPU_Registers where
  A : Nat
  X : Nat
  Y : Nat
  SP : Nat
  PC : Nat
  PF : Nat
  deriving DecidableEq, Repr

/-- Read of a one-bit field: the bit of `PF` at the field's position. -/
def CPU_Registers.get (r : CPU_Registers) (f : Flag) : Nat :=
  r.PF / 2 ^ f.bit % 2

/-- Write of a one-bit field: the stored value is `v` truncated to one bit, the other bits
of `PF` keep their value. -/
def CPU_Registers.set (r : CPU_Registers) (f : Flag) (v : Nat) : CPU_Registers :=
  { r with PF := r.PF - (r.PF / 2 ^ f.bit % 2) * 2 ^ f.bit + (v % 2) * 2 ^ f.bit }

/-- Write of the combined byte (`registers.PF = b`). -/
def CPU_Registers.setPF (r : CPU_Registers) (b : Nat) : CPU_Registers :=
  { r with PF := b % 256 }

set_option linter.dupNamespace false in
/-- The constructor `CPU_Registers::CPU_Registers()`, statement by statement, run on the
indeterminate storage `g` the object starts with. -/
def CPU_Registers.CPU_Registers (g : CPU_Registers) : CPU_Registers :=
  let r := { g with A := 0x00 % 256 }
  let r := { r with X := 0x00 % 256 }
  let r := { r with Y := 0x00 % 256 }
  let r := { r with SP := 0x00 % 256 }
  let r := { r with PC := 0x0000 % 65536 }
  let r := r.set .C 0x00
  let r := r.set .Z 0x00
  let r := r.set .I 0x00
  let r := r.set .D 0x00
  let r := r.set .B 0x00
  let r := r.set .U 0x00
  let r := r.set .O 0x00
  let r := r.set .N 0x00
  r.setPF 0x00

/-- The program `main` of `src/main.cpp`: constructs the registers, stores `0x0F` in `PF`
and prints the carry field; the result is the value printed. -/
def main (g : CPU_Registers) : Nat :=
  let registers := CPU_Registers.CPU_Registers g
  let registers := registers.setPF 0x0F
  registers.get .C

/-- Modelled from the spec: the memory interface (section 6,
`readByte(address: 0..65535) -> byte`), which the source does not declare. A memory is a
function from addresses to bytes. -/
abbrev Memory := Nat → Nat

/-- Modelled from the spec: `readByte` of the memory interface, on a 16-bit address. -/
def readByte (mem : Memory) (address : Nat) : Nat :=
  mem (address % 65536) % 256

/-- Modelled from the spec: a 16-bit little-endian pointer stored at `address` (low byte first),
read through the memory interface. -/
def readWord (mem : Memory) (address : Nat) : Nat :=
  readByte mem address + 256 * readByte mem (address + 1)

/-- Modelled from the spec: the reset vector, one of the "three fixed 16-bit little-endian
pointers at the top of the address space"; the source names no vector, `0xFFFC` is the
6502 reset vector. -/
def resetVector : Nat := 0xFFFC

/-- Sign bit (bit 7) of a byte. -/
def signBit (x : Nat) : Nat := x / 128 % 2

/-- Two's-complement value of a byte. -/
def toSigned (x : Nat) : Int := if x < 128 then (x : Int) else (x : Int) - 256

/-- Modelled from the spec: the body of `CPU_Instructions::ADC`, of which the source has only
the declaration `BYTE ADC ();`. Section 4.3: operate on the accumulator with carry-in, always in
binary; set the carry flag from the 9th bit of the result; set the overflow flag when the sign
of the result is inconsistent with the signs of both operands; set zero and negative from the
result. `operand` is the byte the addressing mode resolved. -/
def ADC (r : CPU_Registers) (operand : Nat) : CPU_Registers :=
  let sum := r.A + operand + r.get .C
  let result := sum % 256
  let r1 := r.set .C (sum / 256)
  let r2 := r1.set .O
    (if signBit result ≠ signBit r.A ∧ signBit result ≠ signBit operand then 1 else 0)
  let r3 := r2.set .Z (if result = 0 then 1 else 0)
  let r4 := r3.set .N (signBit result)
  { r4 with A := result }

/-- Operand bytes consumed by each addressing mode, as tabulated in the specification
(section 4.2): none for implicit and accumulator; one for immediate, zero page,
zero page X/Y, relative, indexed indirect and indirect indexed; two for absolute,
absolute X/Y and indirect. -/
def specOperandBytes : CPU_AddressModes → Nat
  | .imp => 0
  | .acc => 0
  | .imm => 1
  | .zp => 1
  | .zpx => 1
  | .zpy => 1
  | .rel => 1
  | .inx => 1
  | .iny => 1
  | .abs => 2
  | .abx => 2
  | .aby => 2
  | .ind => 2

/-- The eight branch instructions (`// Branch operations` in `CPU_Instructions`). -/
def branchInstructions : List CPU_Instructions :=
  [.BCC, .BCS, .BEQ, .BMI, .BNE, .BPL, .BVC, .BVS]

/-- Modelled from the spec: `writeByte` of the memory interface (section 6), which the source
does not declare: the byte at the 16-bit address becomes `value`, every other byte is kept. -/
def writeByte (mem : Memory) (address value : Nat) : Memory :=
  fun a => if a = address % 65536 then value % 256 else mem a

/-- Modelled from the spec: the "fixed 256-byte page" the stack lives in; the source names no
page, `0x0100` is the 6502 stack page. -/
def stackPage : Nat := 0x0100

/-- Modelled from the spec: a stack push, absent from the source. Section 4.3: "push writes
then decrements the pointer", the 8-bit pointer wrapping within the page. -/
def push (r : CPU_Registers) (mem : Memory) (value : Nat) : CPU_Registers × Memory :=
  ({ r with SP := (r.SP + 255) % 256 }, writeByte mem (stackPage + r.SP % 256) value)

/-- Modelled from the spec: a stack pull, absent from the source. Section 4.3: "pull increments
then reads", the 8-bit pointer wrapping within the page. The result is the byte read and the
register file with the new pointer. -/
def pull (r : CPU_Registers) (mem : Memory) : Nat × CPU_Registers :=
  let sp := (r.SP + 1) % 256
  (readByte mem (stackPage + sp), { r with SP := sp })

/-- Modelled from the spec: the body of `CPU_Instructions::PHA` ("Push Accumulator"), of which
the source has only the declaration. -/
def PHA (r : CPU_Registers) (mem : Memory) : CPU_Registers × Memory :=
  push r mem r.A

/-- Modelled from the spec: the body of `CPU_Instructions::PLA` ("Pull Accumulator"), of which
the source has only the declaration; the spec states no flag update for it, none is modelled. -/
def PLA (r : CPU_Registers) (mem : Memory) : CPU_Registers :=
  let p := pull r mem
  { p.2 with A := p.1 }

/-- Modelled from the spec: the body of `CPU_AddressModes::ind`, of which the source has only
the declaration. Section 4.2: the address is the 16-bit value read from the 16-bit operand
location; if the operand's low byte is `0xFF`, the high byte of the fetched address is read
from the start of the same page rather than from the next page. -/
def ind (mem : Memory) (operand : Nat) : Nat :=
  let low := readByte mem operand
  let high :=
    if operand % 256 = 0xFF then readByte mem (operand / 256 * 256)
    else readByte mem (operand + 1)
  low + 256 * high

/-- Modelled from the spec: the body of `CPU_Instructions::JMP`, of which the source has only
the declaration. Section 4.3: "set program counter directly to the resolved address". -/
def JMP (r : CPU_Registers) (address : Nat) : CPU_Registers :=
  { r with PC := address % 65536 }

/-- The 151 documented opcodes of the 6502 instruction set, grouped by instruction in
alphabetical order, as listed in the instruction-set reference the source cites above its table
(`masswerk.at/6502/6502_instruction_set.html`). Every other byte value is an undocumented
opcode. -/
def documentedOpcodes : List Nat :=
  [0x69, 0x65, 0x75, 0x6D, 0x7D, 0x79, 0x61, 0x71] ++  -- ADC
  [0x29, 0x25, 0x35, 0x2D, 0x3D, 0x39, 0x21, 0x31] ++  -- AND
  [0x0A, 0x06, 0x16, 0x0E, 0x1E] ++  -- ASL
  [0x90] ++  -- BCC
  [0xB0] ++  -- BCS
  [0xF0] ++  -- BEQ
  [0x24, 0x2C] ++  -- BIT
  [0x30] ++  -- BMI
  [0xD0] ++  -- BNE
  [0x10] ++  -- BPL
  [0x00] ++  -- BRK
  [0x50] ++  -- BVC
  [0x70] ++  -- BVS
  [0x18] ++  -- CLC
  [0xD8] ++  -- CLD
  [0x58] ++  -- CLI
  [0xB8] ++  -- CLV
  [0xC9, 0xC5, 0xD5, 0xCD, 0xDD, 0xD9, 0xC1, 0xD1] ++  -- CMP
  [0xE0, 0xE4, 0xEC] ++  -- CPX
  [0xC0, 0xC4, 0xCC] ++  -- CPY
  [0xC6, 0xD6, 0xCE, 0xDE] ++  -- DEC
  [0xCA] ++  -- DEX
  [0x88] ++  -- DEY
  [0x49, 0x45, 0x55, 0x4D, 0x5D, 0x59, 0x41, 0x51] ++  -- EOR
  [0xE6, 0xF6, 0xEE, 0xFE] ++  -- INC
  [0xE8] ++  -- INX
  [0xC8] ++  -- INY
  [0x4C, 0x6C] ++  -- JMP
  [0x20] ++  -- JSR
  [0xA9, 0xA5, 0xB5, 0xAD, 0xBD, 0xB9, 0xA1, 0xB1] ++  -- LDA
  [0xA2, 0xA6, 0xB6, 0xAE, 0xBE] ++  -- LDX
  [0xA0, 0xA4, 0xB4, 0xAC, 0xBC] ++  -- LDY
  [0x4A, 0x46, 0x56, 0x4E, 0x5E] ++  -- LSR
  [0xEA] ++  -- NOP
  [0x09, 0x05, 0x15, 0x0D, 0x1D, 0x19, 0x01, 0x11] ++  -- ORA
  [0x48] ++  -- PHA
  [0x08] ++  -- PHP
  [0x68] ++  -- PLA
  [0x28] ++  -- PLP
  [0x2A, 0x26, 0x36, 0x2E, 0x3E] ++  -- ROL
  [0x6A, 0x66, 0x76, 0x6E, 0x7E] ++  -- ROR
  [0x40] ++  -- RTI
  [0x60] ++  -- RTS
  [0xE9, 0xE5, 0xF5, 0xED, 0xFD, 0xF9, 0xE1, 0xF1] ++  -- SBC
  [0x38] ++  -- SEC
  [0xF8] ++  -- SED
  [0x78] ++  -- SEI
  [0x85, 0x95, 0x8D, 0x9D, 0x99, 0x81, 0x91] ++  -- STA
  [0x86, 0x96, 0x8E] ++  -- STX
  [0x84, 0x94, 0x8C] ++  -- STY
  [0xAA] ++  -- TAX
  [0xA8] ++  -- TAY
  [0xBA] ++  -- TSX
  [0x8A] ++  -- TXA
  [0x9A] ++  -- TXS
  [0x98]  -- TYA

/-- The four shift and rotate instructions (`// Shift operations` in `CPU_Instructions`). -/
def shiftInstructions : List CPU_Instructions :=
  [.ASL, .LSR, .ROL, .ROR]

/-- The thirteen member functions of `struct CPU_AddressModes`, in declaration order. -/
def declaredAddressModes : List CPU_AddressModes :=
  [.imm, .imp, .acc, .zp, .zpx, .zpy, .rel, .abs, .abx, .aby, .ind, .inx, .iny]

/-- The fifty-six member functions of `struct CPU_Instructions`, in declaration order. -/
def declaredInstructions : List CPU_Instructions :=
  [.LDA, .LDX, .LDY, .STA, .STX, .STY,
   .TAX, .TAY, .TXA, .TYA,
   .TSX, .TXS, .PHA, .PHP, .PLA, .PLP,
   .AND, .EOR, .ORA, .BIT,
   .ADC, .SBC, .CMP, .CPX, .CPY,
   .INC, .INX, .INY, .DEC, .DEX, .DEY,
   .ASL, .LSR, .ROL, .ROR,
   .JMP, .JSR, .RTS,
   .BCC, .BCS, .BEQ, .BMI, .BNE, .BPL, .BVC, .BVS,
   .CLC, .CLD, .CLI, .CLV, .SEC, .SED, .SEI,
   .BRK, .NOP, .RTI]

/-- The read-type operand class: instructions that only read their operand. -/
def readInstructions : List CPU_Instructions :=
  [.LDA, .LDX, .LDY, .AND, .ORA, .EOR, .ADC, .SBC, .CMP, .CPX, .CPY, .BIT]

/-- The read-modify-write operand class: shifts, rotates, `INC` and `DEC`. -/
def modifyInstructions : List CPU_Instructions :=
  [.ASL, .LSR, .ROL, .ROR, .INC, .DEC]

/-- Expected base cost of a read-type instruction per addressing mode; `none` for a mode
no read-type instruction is expected to use. -/
def specReadCost : CPU_AddressModes → Option Nat
  | .imm => some 2
  | .zp => some 3
  | .zpx => some 4
  | .zpy => some 4
  | .abs => some 4
  | .abx => some 4
  | .aby => some 4
  | .inx => some 6
  | .iny => some 5
  | _ => none

/-- Expected base cost of a read-modify-write instruction per addressing mode; `none` for a
mode no read-modify-write instruction is expected to use. -/
def specModifyCost : CPU_AddressModes → Option Nat
  | .acc => some 2
  | .zp => some 5
  | .zpx => some 6
  | .abs => some 6
  | .abx => some 7
  | _ => none


/-- A list whose keys enumerate `k, k+1, ..., k+n-1` in order holds each key exactly once. -/
theorem filter_key_singleton {α : Type} (f : α → Nat) :
    ∀ (l : List α) (k n : Nat), l.map f = List.range' k n →
      ∀ b, k ≤ b → b < k + n → ∃ e ∈ l, l.filter (fun r => f r = b) = [e]
  | [], k, n, h, b, hk, hb => by
    cases n with
    | zero => omega
    | succ n => simp [List.range'] at h
  | x :: xs, k, n, h, b, hk, hb => by
    cases n with
    | zero => simp [List.range'] at h
    | succ n =>
      simp only [List.map_cons, List.range', List.cons.injEq] at h
      obtain ⟨hx, hxs⟩ := h
      by_cases hbk : b = k
      · subst hbk
        refine ⟨x, List.mem_cons_self _ _, ?_⟩
        have hnone : xs.filter (fun r => f r = b) = [] := by
          rw [List.filter_eq_nil_iff]
          intro a ha
          have hmem : f a ∈ List.range' (b + 1) n := by
            rw [← hxs]; exact List.mem_map_of_mem f ha
          have := (List.mem_range'_1.mp hmem).1
          simp only [decide_eq_true_eq]
          omega
        simp [List.filter_cons, hx, hnone]
      · obtain ⟨e, he, hfe⟩ := filter_key_singleton f xs (k + 1) n hxs b (by omega) (by omega)
        refine ⟨e, List.mem_cons_of_mem _ he, ?_⟩
        have hne : f x ≠ b := by omega
        simp [List.filter_cons, hne, hfe]

/-- The `opcode` fields of the rows, read in table order, are `0x00, 0x01, ..., 0xFF`. -/
theorem opcodeTable_opcodes : opcodeTable.map (fun r => r.opcode) = List.range' 0 256 := by
  decide!

/-- Every row has a length of 1, 2 or 3 bytes and a base cost of at least 2 cycles. -/
theorem opcodeTable_ranges :
    ∀ e ∈ opcodeTable, (e.bytes = 1 ∨ e.bytes = 2 ∨ e.bytes = 3) ∧ 2 ≤ e.cycles := by
  decide!

/-- C1. Every opcode byte `b` in `0x00..0xFF` selects exactly one row of `opcodeTable`
(the rows whose `opcode` field is `b` form a one-element list), and that row has an instruction
length of 1, 2 or 3 bytes and a base cycle cost of at least 2. -/
theorem opcodeTable_unique_entry (b : Nat) (hb : b < 256) :
    ∃ e ∈ opcodeTable, opcodeTable.filter (fun r => r.opcode = b) = [e] ∧
      (e.bytes = 1 ∨ e.bytes = 2 ∨ e.bytes = 3) ∧ 2 ≤ e.cycles := by
  obtain ⟨e, he, hfe⟩ := filter_key_singleton (fun r : CPU_Instruction => r.opcode)
    opcodeTable 0 256 opcodeTable_opcodes b (Nat.zero_le b) (by omega)
  exact ⟨e, he, hfe, opcodeTable_ranges e he⟩

/-- C1 at opcode `0xEA`. -/
theorem opcodeTable_unique_entry_witness :
    (0xEA < 256) ∧ ∃ e ∈ opcodeTable, opcodeTable.filter (fun r => r.opcode = 0xEA) = [e] ∧
      (e.bytes = 1 ∨ e.bytes = 2 ∨ e.bytes = 3) ∧ 2 ≤ e.cycles :=
  ⟨by decide, opcodeTable_unique_entry 0xEA (by decide)⟩

/-- C2. Every row of `opcodeTable` declares a length of one opcode byte plus the operand bytes
the specification tabulates for the row's addressing mode. -/
theorem opcodeTable_bytes_match_mode (e : CPU_Instruction) (he : e ∈ opcodeTable) :
    e.bytes = 1 + specOperandBytes e.addressMode := by
  revert e
  decide!

/-- C2 at the row of indirect `JMP`. -/
theorem opcodeTable_bytes_match_mode_witness :
    (CPU_Instruction.mk 0x6C .JMP .ind 3 5) ∈ opcodeTable ∧
      (CPU_Instruction.mk 0x6C .JMP .ind 3 5).bytes =
        1 + specOperandBytes (CPU_Instruction.mk 0x6C .JMP .ind 3 5).addressMode :=
  ⟨by decide!, opcodeTable_bytes_match_mode _ (by decide!)⟩

/-- C3. Every opcode that is not one of the 151 documented 6502 opcodes maps to the
no-operation placeholder: a row whose opcode is not documented names `NOP` with implicit
addressing and a declared length of one byte, and a row names an instruction other than `NOP`
exactly when its opcode is documented and is not `0xEA`. Hence exactly 150 rows of
`opcodeTable` name an instruction other than `NOP`; the other 106 rows, among them the official
`NOP` at `0xEA`, name `NOP` with implicit addressing and a declared length of one byte. -/
theorem opcodeTable_nop_placeholder :
    opcodeTable.length = 256 ∧
    (opcodeTable.filter (fun e => e.instruction ≠ .NOP)).length = 150 ∧
    (opcodeTable.filter (fun e => e.instruction = .NOP)).length = 106 ∧
    (CPU_Instruction.mk 0xEA .NOP .imp 1 2) ∈ opcodeTable ∧
    (∀ e ∈ opcodeTable, e.instruction = .NOP → e.addressMode = .imp ∧ e.bytes = 1) ∧
    documentedOpcodes.length = 151 ∧ documentedOpcodes.Nodup ∧
    (∀ b ∈ documentedOpcodes, b < 256) ∧
    (∀ e ∈ opcodeTable, e.opcode ∉ documentedOpcodes →
      e.instruction = .NOP ∧ e.addressMode = .imp ∧ e.bytes = 1) ∧
    (∀ e ∈ opcodeTable,
      e.instruction ≠ .NOP ↔ (e.opcode ∈ documentedOpcodes ∧ e.opcode ≠ 0xEA)) := by
  decide!

/-- C9. A row of `opcodeTable` uses relative addressing exactly when its instruction is one of
the eight branches, and each branch has exactly one row, which is relative, two bytes long and
costs two base cycles. -/
theorem opcodeTable_relative_iff_branch :
    (∀ e ∈ opcodeTable, e.addressMode = .rel ↔ e.instruction ∈ branchInstructions) ∧
    ∀ i ∈ branchInstructions, ∃ e ∈ opcodeTable,
      opcodeTable.filter (fun r => r.instruction = i) = [e] ∧
        e.addressMode = .rel ∧ e.bytes = 2 ∧ e.cycles = 2 := by
  decide!

/-- Unfolded form of a flag read, one equation per flag. -/
theorem get_eq (r : CPU_Registers) :
    r.get .C = r.PF % 2 ∧ r.get .Z = r.PF / 2 % 2 ∧ r.get .I = r.PF / 4 % 2 ∧
    r.get .D = r.PF / 8 % 2 ∧ r.get .B = r.PF / 16 % 2 ∧ r.get .U = r.PF / 32 % 2 ∧
    r.get .O = r.PF / 64 % 2 ∧ r.get .N = r.PF / 128 % 2 := by
  simp [CPU_Registers.get, Flag.bit]

/-- A status byte is the weighted sum of its eight flag bits. -/
theorem PF_eq_pack (r : CPU_Registers) (h : r.PF < 256) :
    r.PF = 128 * r.get .N + 64 * r.get .O + 32 * r.get .U + 16 * r.get .B +
      8 * r.get .D + 4 * r.get .I + 2 * r.get .Z + r.get .C := by
  obtain ⟨hC, hZ, hI, hD, hB, hU, hO, hN⟩ := get_eq r
  rw [hC, hZ, hI, hD, hB, hU, hO, hN]
  omega

/-- C4. For every register file whose status byte is a byte, `PF` is the eight flags packed
from most to least significant bit as negative, overflow, unused, break, decimal,
interrupt-disable, zero, carry, each flag being 0 or 1. -/
theorem PF_packs_flags (r : CPU_Registers) (h : r.PF < 256) :
    r.PF = 128 * r.get .N + 64 * r.get .O + 32 * r.get .U + 16 * r.get .B +
      8 * r.get .D + 4 * r.get .I + 2 * r.get .Z + r.get .C ∧
    ∀ f, r.get f < 2 := by
  refine ⟨PF_eq_pack r h, ?_⟩
  intro f
  unfold CPU_Registers.get
  exact Nat.mod_lt _ (by decide)

/-- C4 at the status byte `0xA5`. -/
theorem PF_packs_flags_witness :
    (CPU_Registers.mk 0 0 0 0 0 0xA5).PF < 256 ∧
    ((CPU_Registers.mk 0 0 0 0 0 0xA5).PF =
      128 * (CPU_Registers.mk 0 0 0 0 0 0xA5).get .N + 64 * (CPU_Registers.mk 0 0 0 0 0 0xA5).get .O +
      32 * (CPU_Registers.mk 0 0 0 0 0 0xA5).get .U + 16 * (CPU_Registers.mk 0 0 0 0 0 0xA5).get .B +
      8 * (CPU_Registers.mk 0 0 0 0 0 0xA5).get .D + 4 * (CPU_Registers.mk 0 0 0 0 0 0xA5).get .I +
      2 * (CPU_Registers.mk 0 0 0 0 0 0xA5).get .Z + (CPU_Registers.mk 0 0 0 0 0 0xA5).get .C ∧
    ∀ f, (CPU_Registers.mk 0 0 0 0 0 0xA5).get f < 2) :=
  ⟨by decide, PF_packs_flags _ (by decide)⟩

/-- A flag reads back the one-bit truncation of the value just written to it. -/
theorem get_set_self (r : CPU_Registers) (f : Flag) (v : Nat) :
    (r.set f v).get f = v % 2 := by
  cases f <;> simp only [CPU_Registers.get, CPU_Registers.set, Flag.bit, Nat.reducePow] <;> omega

/-- Writing one flag leaves the reading of every other flag unchanged. -/
theorem get_set_other (r : CPU_Registers) (f g : Flag) (v : Nat) (hgf : g ≠ f) :
    (r.set f v).get g = r.get g := by
  cases f <;> cases g <;> first
    | exact absurd rfl hgf
    | (simp only [CPU_Registers.get, CPU_Registers.set, Flag.bit, Nat.reducePow]; omega)

/-- Writing one flag keeps the status byte a byte. -/
theorem set_PF_lt (r : CPU_Registers) (f : Flag) (v : Nat) (h : r.PF < 256) :
    (r.set f v).PF < 256 := by
  cases f <;> simp only [CPU_Registers.set, Flag.bit, Nat.reducePow] <;> omega

/-- The constructor yields the all-zero register file whatever the storage held before. -/
theorem ctor_eq (g : CPU_Registers) :
    CPU_Registers.CPU_Registers g = CPU_Registers.mk 0 0 0 0 0 0 := by
  simp [CPU_Registers.CPU_Registers, CPU_Registers.setPF, CPU_Registers.set]

/-- C5. Storing a byte `b` in `PF` scatters it into the flags and is lossless: every flag reads
the bit of `b` at its position and `PF` reads back `b`. Conversely, for flag values
`n o u bk d i z c` (each 0 or 1), storing their packed byte in `PF`, or writing the eight flags
one by one, makes every flag read the value assigned and `PF` read the packed byte. The program
`main` (`PF := 0x0F`, then read `C`) yields 1. -/
theorem setPF_scatter_lossless (r : CPU_Registers) (b : Nat) (hb : b < 256) (hr : r.PF < 256)
    (n o u bk d i z c : Nat) (hn : n < 2) (ho : o < 2) (hu : u < 2) (hbk : bk < 2)
    (hd : d < 2) (hi : i < 2) (hz : z < 2) (hc : c < 2) :
    (∀ f, (r.setPF b).get f = b / 2 ^ f.bit % 2 ∧
      ((r.setPF b).get f = 1 ↔ b.testBit f.bit = true)) ∧
    (r.setPF b).PF = b ∧
    ((r.setPF (128 * n + 64 * o + 32 * u + 16 * bk + 8 * d + 4 * i + 2 * z + c)).get .N = n ∧
      (r.setPF (128 * n + 64 * o + 32 * u + 16 * bk + 8 * d + 4 * i + 2 * z + c)).get .O = o ∧
      (r.setPF (128 * n + 64 * o + 32 * u + 16 * bk + 8 * d + 4 * i + 2 * z + c)).get .U = u ∧
      (r.setPF (128 * n + 64 * o + 32 * u + 16 * bk + 8 * d + 4 * i + 2 * z + c)).get .B = bk ∧
      (r.setPF (128 * n + 64 * o + 32 * u + 16 * bk + 8 * d + 4 * i + 2 * z + c)).get .D = d ∧
      (r.setPF (128 * n + 64 * o + 32 * u + 16 * bk + 8 * d + 4 * i + 2 * z + c)).get .I = i ∧
      (r.setPF (128 * n + 64 * o + 32 * u + 16 * bk + 8 * d + 4 * i + 2 * z + c)).get .Z = z ∧
      (r.setPF (128 * n + 64 * o + 32 * u + 16 * bk + 8 * d + 4 * i + 2 * z + c)).get .C = c) ∧
    ((((((((r.set .C c).set .Z z).set .I i).set .D d).set .B bk).set .U u).set .O o).set .N n).PF
      = 128 * n + 64 * o + 32 * u + 16 * bk + 8 * d + 4 * i + 2 * z + c ∧
    main r = 1 := by
  refine ⟨?_, ?_, ?_, ?_, ?_⟩
  · intro f
    have hget : (r.setPF b).get f = b / 2 ^ f.bit % 2 := by
      simp only [CPU_Registers.get, CPU_Registers.setPF, Nat.mod_eq_of_lt hb]
    refine ⟨hget, ?_⟩
    rw [hget, Nat.testBit_to_div_mod]
    simp
  · simp only [CPU_Registers.setPF, Nat.mod_eq_of_lt hb]
  · simp only [CPU_Registers.get, CPU_Registers.setPF, Flag.bit, Nat.reducePow]
    refine ⟨?_, ?_, ?_, ?_, ?_, ?_, ?_, ?_⟩ <;> omega
  · have hlt : (((((((((r.set .C c).set .Z z).set .I i).set .D d).set .B bk).set .U u).set .O o).set
        .N n).PF) < 256 := by
      repeat apply set_PF_lt
      exact hr
    rw [PF_eq_pack _ hlt]
    simp only [get_set_self, get_set_other, ne_eq, reduceCtorEq, not_false_eq_true,
      Nat.mod_eq_of_lt hn, Nat.mod_eq_of_lt ho, Nat.mod_eq_of_lt hu, Nat.mod_eq_of_lt hbk,
      Nat.mod_eq_of_lt hd, Nat.mod_eq_of_lt hi, Nat.mod_eq_of_lt hz, Nat.mod_eq_of_lt hc]
  · show ((CPU_Registers.CPU_Registers r).setPF 0x0F).get .C = 1
    rw [ctor_eq]
    rfl

/-- C5 at `PF := 0x0F` on the all-zero register file (the state `main` builds), with the flag
assignment N=1, O=0, U=1, B=0, D=0, I=1, Z=0, C=1: the carry flag reads bit 0 of `0x0F`. -/
theorem setPF_scatter_lossless_witness :
    (0x0F < 256 ∧ (CPU_Registers.mk 0 0 0 0 0 0).PF < 256) ∧
    ((CPU_Registers.mk 0 0 0 0 0 0).setPF 0x0F).get .C = 0x0F / 2 ^ Flag.C.bit % 2 ∧
    ((CPU_Registers.mk 0 0 0 0 0 0).setPF 0x0F).PF = 0x0F ∧
    ((CPU_Registers.mk 0 0 0 0 0 0).setPF
      (128 * 1 + 64 * 0 + 32 * 1 + 16 * 0 + 8 * 0 + 4 * 1 + 2 * 0 + 1)).get .N = 1 :=
  have h := setPF_scatter_lossless (CPU_Registers.mk 0 0 0 0 0 0) 0x0F (by decide) (by decide)
    1 0 1 0 0 1 0 1 (by decide) (by decide) (by decide) (by decide)
    (by decide) (by decide) (by decide) (by decide)
  ⟨⟨by decide, by decide⟩, (h.1 .C).1, h.2.1, h.2.2.1.1⟩

/-- C6. The constructor leaves the accumulator, X, Y and all eight flags at zero and the status
byte at `0x00`, and its result does not depend on what the storage held before: no register is
left undefined. -/
theorem ctor_reset_state (g : CPU_Registers) :
    (CPU_Registers.CPU_Registers g).A = 0 ∧ (CPU_Registers.CPU_Registers g).X = 0 ∧
    (CPU_Registers.CPU_Registers g).Y = 0 ∧
    (∀ f, (CPU_Registers.CPU_Registers g).get f = 0) ∧
    (CPU_Registers.CPU_Registers g).PF = 0x00 ∧
    ∀ g2, CPU_Registers.CPU_Registers g2 = CPU_Registers.CPU_Registers g := by
  simp [ctor_eq, CPU_Registers.get]

/-- C7, as stated, fails: with every memory byte `0x80` the reset vector holds `0x8080`, while
the constructed register file has program counter `0x0000`. -/
theorem reset_PC_counterexample :
    (CPU_Registers.CPU_Registers (CPU_Registers.mk 0 0 0 0 0 0)).PC = 0x0000 ∧
    readWord (fun _ => 0x80) resetVector = 0x8080 ∧
    (CPU_Registers.CPU_Registers (CPU_Registers.mk 0 0 0 0 0 0)).PC ≠
      readWord (fun _ => 0x80) resetVector := by
  simp [ctor_eq, readWord, readByte, resetVector]

/-- C7, amended. For every memory content and every prior register content the constructor
sets the program counter to `0x0000`; it agrees with the little-endian word stored at the reset
vector only when that word is zero. -/
theorem reset_PC_zero (mem : Memory) (g : CPU_Registers) :
    (CPU_Registers.CPU_Registers g).PC = 0x0000 ∧
    ((CPU_Registers.CPU_Registers g).PC = readWord mem resetVector ↔
      readWord mem resetVector = 0) := by
  rw [ctor_eq]
  exact ⟨rfl, eq_comm⟩

/-- C8. Writing one flag `f` of a register file changes only the bit of `PF` that belongs to
`f`: `f` reads the written bit, the other seven flags read as before, and `A`, `X`, `Y`, `SP`
and `PC` are unchanged; the status byte stays a byte. -/
theorem flag_write_frame (r : CPU_Registers) (f : Flag) (v : Nat) (h : r.PF < 256) :
    (r.set f v).get f = v % 2 ∧
    (∀ g, g ≠ f → (r.set f v).get g = r.get g) ∧
    (r.set f v).A = r.A ∧ (r.set f v).X = r.X ∧ (r.set f v).Y = r.Y ∧
    (r.set f v).SP = r.SP ∧ (r.set f v).PC = r.PC ∧
    (r.set f v).PF < 256 :=
  ⟨get_set_self r f v, fun g hg => get_set_other r f g v hg, rfl, rfl, rfl, rfl, rfl,
    set_PF_lt r f v h⟩

/-- C8 at clearing the carry flag (as `CLC` does) of a register file with `PF = 0xFF`. -/
theorem flag_write_frame_witness :
    (CPU_Registers.mk 1 2 3 4 5 0xFF).PF < 256 ∧
    (((CPU_Registers.mk 1 2 3 4 5 0xFF).set .C 0).get .C = 0 % 2 ∧
    (∀ g, g ≠ Flag.C →
      ((CPU_Registers.mk 1 2 3 4 5 0xFF).set .C 0).get g = (CPU_Registers.mk 1 2 3 4 5 0xFF).get g) ∧
    ((CPU_Registers.mk 1 2 3 4 5 0xFF).set .C 0).A = 1 ∧
    ((CPU_Registers.mk 1 2 3 4 5 0xFF).set .C 0).X = 2 ∧
    ((CPU_Registers.mk 1 2 3 4 5 0xFF).set .C 0).Y = 3 ∧
    ((CPU_Registers.mk 1 2 3 4 5 0xFF).set .C 0).SP = 4 ∧
    ((CPU_Registers.mk 1 2 3 4 5 0xFF).set .C 0).PC = 5 ∧
    ((CPU_Registers.mk 1 2 3 4 5 0xFF).set .C 0).PF < 256) :=
  ⟨by decide, flag_write_frame (CPU_Registers.mk 1 2 3 4 5 0xFF) .C 0 (by decide)⟩

/-- The sign bit of a byte is 0 below 128 and 1 from 128 on. -/
theorem signBit_byte (x : Nat) (hx : x < 256) :
    (x < 128 ∧ signBit x = 0) ∨ (128 ≤ x ∧ signBit x = 1) := by
  unfold signBit
  omega

/-- Arithmetic of the carry and overflow values `ADC` stores, on bytes `a`, `m` and a carry
bit `c`. -/
theorem adc_arith (a m c : Nat) (hA : a < 256) (hm : m < 256) (hc : c < 2) :
    (a + m + c) / 256 % 2 = (a + m + c) / 256 ∧
    ((if signBit ((a + m + c) % 256) ≠ signBit a ∧
        signBit ((a + m + c) % 256) ≠ signBit m then 1 else 0) % 2 = 1 ↔
      (signBit a = signBit m ∧ signBit ((a + m + c) % 256) ≠ signBit a)) ∧
    ((if signBit ((a + m + c) % 256) ≠ signBit a ∧
        signBit ((a + m + c) % 256) ≠ signBit m then 1 else 0) % 2 = 1 ↔
      (toSigned a + toSigned m + (c : Int) < -128 ∨
        127 < toSigned a + toSigned m + (c : Int))) := by
  have hr : (a + m + c) % 256 < 256 := Nat.mod_lt _ (by decide)
  have hdiv : (a + m + c) / 256 = 0 ∨ (a + m + c) / 256 = 1 := by omega
  have hmod := Nat.div_add_mod (a + m + c) 256
  refine ⟨by omega, ?_, ?_⟩
  · rcases signBit_byte a hA with ⟨h1, h1s⟩ | ⟨h1, h1s⟩ <;>
    rcases signBit_byte m hm with ⟨h2, h2s⟩ | ⟨h2, h2s⟩ <;>
    rcases signBit_byte _ hr with ⟨h3, h3s⟩ | ⟨h3, h3s⟩ <;>
    simp [h1s, h2s, h3s]
  · unfold toSigned
    rcases signBit_byte a hA with ⟨h1, h1s⟩ | ⟨h1, h1s⟩ <;>
    rcases signBit_byte m hm with ⟨h2, h2s⟩ | ⟨h2, h2s⟩ <;>
    rcases signBit_byte _ hr with ⟨h3, h3s⟩ | ⟨h3, h3s⟩ <;>
    rcases hdiv with hd | hd <;>
    simp [h1s, h2s, h3s, Nat.not_lt.mpr, *] <;> omega

/-- The flags and accumulator `ADC` leaves, read back through the bit-field views. -/
theorem ADC_reads (r : CPU_Registers) (m : Nat) :
    (ADC r m).A = (r.A + m + r.get .C) % 256 ∧
    (ADC r m).get .C = (r.A + m + r.get .C) / 256 % 2 ∧
    (ADC r m).get .O =
      (if signBit ((r.A + m + r.get .C) % 256) ≠ signBit r.A ∧
        signBit ((r.A + m + r.get .C) % 256) ≠ signBit m then 1 else 0) % 2 ∧
    (ADC r m).get .Z = (if (r.A + m + r.get .C) % 256 = 0 then 1 else 0) % 2 ∧
    (ADC r m).get .N = signBit ((r.A + m + r.get .C) % 256) % 2 := by
  refine ⟨rfl, ?_, ?_, ?_, ?_⟩
  · show ((((r.set .C _).set .O _).set .Z _).set .N _).get .C = _
    rw [get_set_other _ _ _ _ (by decide), get_set_other _ _ _ _ (by decide),
      get_set_other _ _ _ _ (by decide), get_set_self]
  · show ((((r.set .C _).set .O _).set .Z _).set .N _).get .O = _
    rw [get_set_other _ _ _ _ (by decide), get_set_other _ _ _ _ (by decide), get_set_self]
  · show ((((r.set .C _).set .O _).set .Z _).set .N _).get .Z = _
    rw [get_set_other _ _ _ _ (by decide), get_set_self]
  · show ((((r.set .C _).set .O _).set .Z _).set .N _).get .N = _
    rw [get_set_self]

/-- C10. `ADC` on a register file with accumulator `A`, operand byte `m` and carry-in `C`:
the accumulator becomes `(A + m + C) mod 256`; carry is the 9th bit of `A + m + C`; overflow is
set exactly when both operands have the same sign and the result has the other sign, which is
exactly when the signed sum leaves `-128..127`; zero and negative come from the result. With
`A = 0x7F`, `m = 0x01` and carry-in 0 the result is `0x80` with carry 0, overflow 1, negative 1
and zero 0. -/
theorem ADC_carry_overflow (r : CPU_Registers) (m : Nat) (hA : r.A < 256) (hm : m < 256) :
    (ADC r m).A = (r.A + m + r.get .C) % 256 ∧
    (ADC r m).get .C = (r.A + m + r.get .C) / 256 ∧
    ((ADC r m).get .O = 1 ↔
      (signBit r.A = signBit m ∧ signBit (ADC r m).A ≠ signBit r.A)) ∧
    ((ADC r m).get .O = 1 ↔
      (toSigned r.A + toSigned m + (r.get .C : Int) < -128 ∨
        127 < toSigned r.A + toSigned m + (r.get .C : Int))) ∧
    ((ADC r m).get .Z = 1 ↔ (ADC r m).A = 0) ∧
    ((ADC r m).get .N = 1 ↔ 128 ≤ (ADC r m).A) ∧
    (∀ f, (ADC r m).get f = 0 ∨ (ADC r m).get f = 1) ∧
    (r.A = 0x7F → m = 0x01 → r.get .C = 0 →
      (ADC r m).A = 0x80 ∧ (ADC r m).get .C = 0 ∧ (ADC r m).get .O = 1 ∧
        (ADC r m).get .N = 1 ∧ (ADC r m).get .Z = 0) := by
  have hc : r.get .C < 2 := by
    unfold CPU_Registers.get
    exact Nat.mod_lt _ (by decide)
  obtain ⟨hAeq, hC, hO, hZ, hN⟩ := ADC_reads r m
  obtain ⟨ha1, ha2, ha3⟩ := adc_arith r.A m (r.get .C) hA hm hc
  have hres : (r.A + m + r.get .C) % 256 < 256 := Nat.mod_lt _ (by decide)
  refine ⟨hAeq, by rw [hC, ha1], by rw [hO, hAeq]; exact ha2, by rw [hO]; exact ha3,
    ?_, ?_, ?_, ?_⟩
  · rw [hZ, hAeq]
    split_ifs with h <;> simp [h]
  · rw [hN, hAeq]
    rcases signBit_byte _ hres with ⟨h3, h3s⟩ | ⟨h3, h3s⟩ <;> rw [h3s] <;> omega
  · intro f
    have : (ADC r m).get f < 2 := by
      unfold CPU_Registers.get
      exact Nat.mod_lt _ (by decide)
    omega
  · intro h1 h2 h3
    rw [hAeq, hC, hO, hZ, hN, h1, h2, h3]
    decide

/-- C10 at accumulator `0x7F`, operand `0x01`, carry-in 0. -/
theorem ADC_carry_overflow_witness :
    ((CPU_Registers.mk 0x7F 0 0 0 0 0).A < 256 ∧ 0x01 < 256) ∧
    (ADC (CPU_Registers.mk 0x7F 0 0 0 0 0) 0x01).A = 0x80 ∧
    (ADC (CPU_Registers.mk 0x7F 0 0 0 0 0) 0x01).get .C = 0 ∧
    (ADC (CPU_Registers.mk 0x7F 0 0 0 0 0) 0x01).get .O = 1 ∧
    (ADC (CPU_Registers.mk 0x7F 0 0 0 0 0) 0x01).get .N = 1 ∧
    (ADC (CPU_Registers.mk 0x7F 0 0 0 0 0) 0x01).get .Z = 0 :=
  ⟨⟨by decide, by decide⟩,
    (ADC_carry_overflow (CPU_Registers.mk 0x7F 0 0 0 0 0) 0x01 (by decide) (by decide)).2.2.2.2.2.2.2
      rfl rfl (by decide)⟩

/-- The byte read at the address just written is the byte written. -/
theorem readByte_writeByte_same (mem : Memory) (address value : Nat) (hv : value < 256) :
    readByte (writeByte mem address value) address = value := by
  simp [readByte, writeByte, Nat.mod_eq_of_lt hv]

/-- C11. For every byte `v` and every stack pointer value, a push of `v` followed by a pull
returns `v` and leaves the register file, the stack pointer included, as it was before the push.
The pointer stays an 8-bit value, wrapping from `0x00` to `0xFF` on push, and memory outside
the stack page is not written. `PLA` after `PHA` restores the accumulator even when it was
overwritten in between. -/
theorem push_pull_roundtrip (r : CPU_Registers) (mem : Memory) (v : Nat)
    (hv : v < 256) (hsp : r.SP < 256) :
    (pull (push r mem v).1 (push r mem v).2).1 = v ∧
    (pull (push r mem v).1 (push r mem v).2).2.SP = r.SP ∧
    (pull (push r mem v).1 (push r mem v).2).2 = r ∧
    (push r mem v).1.SP < 256 ∧
    (r.SP = 0x00 → (push r mem v).1.SP = 0xFF) ∧
    (∀ a, (a < stackPage ∨ stackPage + 256 ≤ a) → (push r mem v).2 a = mem a) ∧
    (r.A < 256 → ∀ a2, (PLA { (PHA r mem).1 with A := a2 } (PHA r mem).2).A = r.A ∧
      (PLA { (PHA r mem).1 with A := a2 } (PHA r mem).2).SP = r.SP) := by
  have hwrap : ((r.SP + 255) % 256 + 1) % 256 = r.SP := by omega
  have hsp2 : r.SP % 256 = r.SP := Nat.mod_eq_of_lt hsp
  refine ⟨?_, ?_, ?_, ?_, ?_, ?_, ?_⟩
  · simp only [pull, push, hwrap, hsp2]
    exact readByte_writeByte_same _ _ _ hv
  · simp only [pull, push, hwrap]
  · simp only [pull, push, hwrap]
  · simp only [push]
    omega
  · intro h0
    simp only [push, h0]
  · intro a ha
    simp only [push, writeByte, stackPage, hsp2] at ha ⊢
    have hne : a ≠ (256 + r.SP) % 65536 := by omega
    simp [hne]
  · intro hA a2
    simp only [PLA, PHA, pull, push, hwrap, hsp2]
    exact ⟨readByte_writeByte_same _ _ _ hA, trivial⟩

/-- C11 at byte `0xAB` pushed with the stack pointer at `0x00` (the wrapping case). -/
theorem push_pull_roundtrip_witness :
    (0xAB < 256 ∧ (CPU_Registers.mk 0 0 0 0x00 0 0).SP < 256) ∧
    (pull (push (CPU_Registers.mk 0 0 0 0x00 0 0) (fun _ => 0) 0xAB).1
      (push (CPU_Registers.mk 0 0 0 0x00 0 0) (fun _ => 0) 0xAB).2).1 = 0xAB ∧
    (pull (push (CPU_Registers.mk 0 0 0 0x00 0 0) (fun _ => 0) 0xAB).1
      (push (CPU_Registers.mk 0 0 0 0x00 0 0) (fun _ => 0) 0xAB).2).2.SP = 0x00 ∧
    (push (CPU_Registers.mk 0 0 0 0x00 0 0) (fun _ => 0) 0xAB).1.SP = 0xFF :=
  have h := push_pull_roundtrip (CPU_Registers.mk 0 0 0 0x00 0 0) (fun _ => 0) 0xAB
    (by decide) (by decide)
  ⟨⟨by decide, by decide⟩, h.1, h.2.1, h.2.2.2.2.1 rfl⟩

/-- Masking a 16-bit value whose low byte is `0xFF` with `0xFF00` gives the start of its page. -/
theorem page_mask : ∀ h < 256, (256 * h + 255) &&& 0xFF00 = 256 * h := by
  decide!

/-- C12. Opcode `0x6C` is `JMP` with indirect addressing, and when the low byte of the 16-bit
operand is `0xFF` the jump target's low byte is read at the operand and its high byte at the
start of the same page (`operand & 0xFF00`), not at `operand + 1`: whenever those two bytes
differ the target differs from the plain little-endian word at the operand. -/
theorem JMP_indirect_page_wrap (r : CPU_Registers) (mem : Memory) (operand : Nat)
    (hop : operand < 65536) (hlow : operand % 256 = 0xFF) :
    (CPU_Instruction.mk 0x6C .JMP .ind 3 5) ∈ opcodeTable ∧
    operand &&& 0xFF00 = operand / 256 * 256 ∧
    ind mem operand / 256 = readByte mem (operand &&& 0xFF00) ∧
    ind mem operand % 256 = readByte mem operand ∧
    (JMP r (ind mem operand)).PC =
      readByte mem operand + 256 * readByte mem (operand &&& 0xFF00) ∧
    (readByte mem (operand + 1) ≠ readByte mem (operand &&& 0xFF00) →
      ind mem operand ≠ readWord mem operand) := by
  have hmask : operand &&& 0xFF00 = operand / 256 * 256 := by
    have hsplit : operand = 256 * (operand / 256) + 255 := by omega
    have := page_mask (operand / 256) (by omega)
    rw [← hsplit] at this
    omega
  have hind : ind mem operand =
      readByte mem operand + 256 * readByte mem (operand &&& 0xFF00) := by
    simp only [ind, hlow, hmask, if_true]
  have hb1 : readByte mem operand < 256 := Nat.mod_lt _ (by decide)
  have hb2 : readByte mem (operand &&& 0xFF00) < 256 := Nat.mod_lt _ (by decide)
  refine ⟨by decide!, hmask, ?_, ?_, ?_, ?_⟩
  · rw [hind]; omega
  · rw [hind]; omega
  · simp only [JMP]
    rw [hind]; omega
  · intro hne heq
    rw [hind] at heq
    unfold readWord at heq
    omega

/-- C12 at operand `0x02FF` in a memory holding `0x34` at `0x02FF`, `0x12` at `0x0200` and
`0x56` at `0x0300`: the jump goes to `0x1234`, not `0x5634`. -/
theorem JMP_indirect_page_wrap_witness :
    (0x02FF < 65536 ∧ 0x02FF % 256 = 0xFF) ∧
    (JMP (CPU_Registers.mk 0 0 0 0 0 0)
      (ind (fun a => if a = 0x02FF then 0x34 else if a = 0x0200 then 0x12
        else if a = 0x0300 then 0x56 else 0) 0x02FF)).PC = 0x1234 :=
  ⟨⟨by decide, by decide⟩,
    ((JMP_indirect_page_wrap (CPU_Registers.mk 0 0 0 0 0 0)
      (fun a => if a = 0x02FF then 0x34 else if a = 0x0200 then 0x12
        else if a = 0x0300 then 0x56 else 0) 0x02FF (by decide) (by decide)).2.2.2.2.1).trans
      (by decide)⟩

/-- C13. A row of `opcodeTable` uses accumulator addressing only if its instruction is `ASL`,
`LSR`, `ROL` or `ROR`; each of these four has exactly five rows, in table order zero page,
accumulator, absolute, zero page X, absolute X, and its one accumulator row is one byte long
and costs two base cycles. -/
theorem opcodeTable_accumulator_shifts :
    (∀ e ∈ opcodeTable, e.addressMode = .acc → e.instruction ∈ shiftInstructions) ∧
    ∀ i ∈ shiftInstructions,
      (opcodeTable.filter (fun r => r.instruction = i)).map (fun r => r.addressMode) =
        [.zp, .acc, .abs, .zpx, .abx] ∧
      ∃ e ∈ opcodeTable,
        opcodeTable.filter (fun r => r.instruction = i ∧ r.addressMode = .acc) = [e] ∧
          e.bytes = 1 ∧ e.cycles = 2 := by
  decide!

/-- C14, as stated, fails: the rows of `opcodeTable` reference thirteen distinct addressing
modes, not twelve. -/
theorem addressModes_not_twelve :
    (opcodeTable.map (fun r => r.addressMode)).dedup.length = 13 ∧
    (opcodeTable.map (fun r => r.addressMode)).dedup.length ≠ 12 := by
  decide!

/-- C14, amended. `CPU_AddressModes` declares thirteen addressing modes, every mode is one of
them, and the distinct modes referenced by `opcodeTable` are exactly these thirteen. -/
theorem addressModes_thirteen :
    declaredAddressModes.length = 13 ∧ declaredAddressModes.Nodup ∧
    (∀ m : CPU_AddressModes, m ∈ declaredAddressModes) ∧
    (opcodeTable.map (fun r => r.addressMode)).dedup.length = 13 ∧
    ∀ m : CPU_AddressModes, m ∈ (opcodeTable.map (fun r => r.addressMode)).dedup := by
  refine ⟨by decide, by decide, ?_, by decide!, ?_⟩
  · intro m
    cases m <;> decide
  · intro m
    cases m <;> decide!

/-- C15. The table is indexed by opcode: it has 256 rows and the row stored at index `i` has
its `opcode` field equal to `i`. -/
theorem opcodeTable_positional (i : Nat) (hi : i < 256) :
    opcodeTable.length = 256 ∧ ∃ e, opcodeTable[i]? = some e ∧ e.opcode = i := by
  have hlen : opcodeTable.length = 256 := by decide!
  refine ⟨hlen, ?_⟩
  have h := congrArg (fun l => l[i]?) opcodeTable_opcodes
  simp only [List.getElem?_map] at h
  rw [List.getElem?_range' _ _ hi] at h
  cases hrow : opcodeTable[i]? with
  | none => simp [hrow] at h
  | some e =>
    rw [hrow] at h
    simp only [Option.map_some', Option.some.injEq] at h
    exact ⟨e, rfl, by omega⟩

/-- C15 at index `0x6C`. -/
theorem opcodeTable_positional_witness :
    (0x6C < 256) ∧ opcodeTable.length = 256 ∧
      ∃ e, opcodeTable[0x6C]? = some e ∧ e.opcode = 0x6C :=
  ⟨by decide, opcodeTable_positional 0x6C (by decide)⟩

/-- C16. In every row of a read-type instruction the base cost is the one expected for the
row's addressing mode (2 immediate, 3 zero page, 4 zero page X/Y, 4 absolute and absolute X/Y,
6 indexed indirect, 5 indirect indexed), and in every row of a read-modify-write instruction
likewise (2 accumulator, 5 zero page, 6 zero page X, 6 absolute, 7 absolute X). -/
theorem opcodeTable_cost_by_mode (e : CPU_Instruction) (he : e ∈ opcodeTable) :
    (e.instruction ∈ readInstructions → specReadCost e.addressMode = some e.cycles) ∧
    (e.instruction ∈ modifyInstructions → specModifyCost e.addressMode = some e.cycles) := by
  revert e
  decide!

/-- C16 at the row of `LDA` indirect indexed. -/
theorem opcodeTable_cost_by_mode_witness :
    (CPU_Instruction.mk 0xB1 .LDA .iny 2 5) ∈ opcodeTable ∧
    specReadCost (CPU_Instruction.mk 0xB1 .LDA .iny 2 5).addressMode = some 5 :=
  ⟨by decide!, (opcodeTable_cost_by_mode (CPU_Instruction.mk 0xB1 .LDA .iny 2 5)
    (by decide!)).1 (by decide)⟩

/-- C17. `CPU_Instructions` declares 56 instructions and `CPU_AddressModes` declares 13
addressing modes, and each of them is referenced by at least one row of `opcodeTable`. -/
theorem opcodeTable_references_all :
    declaredInstructions.length = 56 ∧ declaredInstructions.Nodup ∧
    (∀ i : CPU_Instructions, i ∈ declaredInstructions) ∧
    declaredAddressModes.length = 13 ∧ declaredAddressModes.Nodup ∧
    (∀ m : CPU_AddressModes, m ∈ declaredAddressModes) ∧
    (∀ i : CPU_Instructions, ∃ e ∈ opcodeTable, e.instruction = i) ∧
    (∀ m : CPU_AddressModes, ∃ e ∈ opcodeTable, e.addressMode = m) := by
  refine ⟨by decide, by decide!, ?_, by decide, by decide, ?_, ?_, ?_⟩
  · intro i
    cases i <;> decide
  · intro m
    cases m <;> decide
  · intro i
    cases i <;> decide!
  · intro m
    cases m <;> decide!

end NES
